import Mathlib

/- Verification of the rotary-encoder core of KlipperScreen's Encoder module
   (ks_includes/Encoder.py): the quadrature decoder and burst accumulator of
   EncoderHandler._handle_encoder, the speed-adaptive repeat-count classifier,
   the button classifier of EncoderHandler._handle_button, the mode registry
   (add_mode / set_mode / next_mode) and the gesture dispatch through
   EncoderMode.handle_clockwise / handle_counterclockwise. -/

namespace Enc

/-- Bit value of a boolean GPIO pin level (`GPIO.input` result). -/
def bitOf (b : Bool) : Nat := cond b 1 0

/-- Result of one quadrature-decoder step: the new 4-bit state register and
the signed position delta applied to `encoder_position`. -/
structure QuadResult where
  state : Nat
  delta : Int
  deriving DecidableEq

/-- New 4-bit state register computed by `_handle_encoder`:
`((self.last_state << 2) + (GPIO.input(pin_a) << 1) + GPIO.input(pin_b)) & 0b1111`. -/
def quadState (lastState : Nat) (a b : Bool) : Nat :=
  ((lastState <<< 2) + (bitOf a <<< 1) + bitOf b) &&& 15

/-- One step of the quadrature decoder in `_handle_encoder`: the new state is
looked up against the clockwise codes `[0b1101, 0b0100, 0b0010, 0b1011]`
(position delta +1) and the counterclockwise codes
`[0b1110, 0b1000, 0b0001, 0b0111]` (delta -1); any other code gives delta 0.
The state register is replaced by the new state in every case. -/
def quadStep (lastState : Nat) (a b : Bool) : QuadResult :=
  if quadState lastState a b ∈ [13, 4, 2, 11] then ⟨quadState lastState a b, 1⟩
  else if quadState lastState a b ∈ [14, 8, 1, 7] then ⟨quadState lastState a b, -1⟩
  else ⟨quadState lastState a b, 0⟩

/-- Decoder-plus-accumulator state of the handler: the `last_state` register
and the signed `encoder_position` accumulator. -/
structure EncState where
  lastState : Nat
  pos : Int
  deriving DecidableEq

/-- Processing of one pin sample by `_handle_encoder`, restricted to the
decoder and burst accumulator: step the quadrature decoder, add the delta to
`encoder_position`, and when `abs(encoder_position) >= 4` emit one burst
tagged with the sign of the accumulated position (`some true` is clockwise,
`some false` counterclockwise) and reset the accumulator to 0. -/
def feedSample (s : EncState) (a b : Bool) : EncState × Option Bool :=
  let r := quadStep s.lastState a b
  let p := s.pos + r.delta
  if 4 ≤ p.natAbs then (⟨r.state, 0⟩, some (decide (0 < p)))
  else (⟨r.state, p⟩, none)

/-- Runs the decoder over a list of pin samples, collecting emitted bursts in
arrival order. -/
def runEnc (s : EncState) : List (Bool × Bool) → EncState × List Bool
  | [] => (s, [])
  | (a, b) :: rest =>
    let step := feedSample s a b
    let next := runEnc step.1 rest
    (next.1, step.2.toList ++ next.2)

/-- Pin-sample sequence of one full clockwise detent starting from the rest
levels A=1, B=1: the Gray-code cycle 11 -> 01 -> 00 -> 10 -> 11, which drives
the decoder through the clockwise codes 1101, 0100, 0010, 1011. -/
def cwDetent : List (Bool × Bool) :=
  [(false, true), (false, false), (true, false), (true, true)]

/-- Pin samples of n consecutive full clockwise detents. -/
def detentSamples : Nat → List (Bool × Bool)
  | 0 => []
  | n + 1 => cwDetent ++ detentSamples n

/-- Masking with 15 is reduction modulo 16. -/
theorem and_fifteen (x : Nat) : x &&& 15 = x % 16 := by
  have h := Nat.and_pow_two_sub_one_eq_mod x 4
  norm_num at h
  exact h

/-- The 4-bit state computed from a state register depends only on the
register's low two bits. -/
theorem quadState_eq (ls : Nat) (a b : Bool) :
    quadState ls a b = (ls % 4) * 4 + ((bitOf a) * 2 + bitOf b) := by
  have ha : bitOf a ≤ 1 := by cases a <;> simp [bitOf]
  have hb : bitOf b ≤ 1 := by cases b <;> simp [bitOf]
  unfold quadState
  rw [and_fifteen, Nat.shiftLeft_eq, Nat.shiftLeft_eq]
  norm_num
  omega

/-- Claim C1: for every call of the quadrature decoder with previous 4-bit
state s and pin levels (a, b), the new state is ((s << 2) | (a << 1) | b) & 0xF,
the delta is +1 exactly when the new state is one of 0b1101, 0b0100, 0b0010,
0b1011, -1 exactly when it is one of 0b1110, 0b1000, 0b0001, 0b0111, and 0 for
every other 4-bit value; the state register is updated to the new state on
every call regardless of the delta. -/
theorem quadStep_spec (s : Nat) (hs : s < 16) (a b : Bool) :
    (quadStep s a b).state = ((s <<< 2) ||| ((bitOf a) <<< 1) ||| bitOf b) &&& 15 ∧
    ((quadStep s a b).delta = 1 ↔ (quadStep s a b).state ∈ [13, 4, 2, 11]) ∧
    ((quadStep s a b).delta = -1 ↔ (quadStep s a b).state ∈ [14, 8, 1, 7]) ∧
    ((quadStep s a b).delta = 0 ↔
      ¬ (quadStep s a b).state ∈ [13, 4, 2, 11] ∧
        ¬ (quadStep s a b).state ∈ [14, 8, 1, 7]) := by
  revert hs a b
  revert s
  decide

/-- Witness for claim C1 at s = 3, a = 0, b = 1. -/
theorem quadStep_spec_witness :
    (3 : Nat) < 16 ∧
    ((quadStep 3 false true).state =
        (((3 : Nat) <<< 2) ||| ((bitOf false) <<< 1) ||| bitOf true) &&& 15 ∧
      ((quadStep 3 false true).delta = 1 ↔ (quadStep 3 false true).state ∈ [13, 4, 2, 11]) ∧
      ((quadStep 3 false true).delta = -1 ↔ (quadStep 3 false true).state ∈ [14, 8, 1, 7]) ∧
      ((quadStep 3 false true).delta = 0 ↔
        ¬ (quadStep 3 false true).state ∈ [13, 4, 2, 11] ∧
          ¬ (quadStep 3 false true).state ∈ [14, 8, 1, 7])) :=
  ⟨by decide, quadStep_spec 3 (by decide) false true⟩

/-- Claim C9: for every decoder state reached by feeding at least one sample
(a, b), feeding the same pin levels again yields delta 0 and leaves the lower
two bits of the 4-bit state equal to those same levels. -/
theorem quadStep_repeat_absorbed (s : Nat) (hs : s < 16) (a b : Bool) :
    (quadStep (quadStep s a b).state a b).delta = 0 ∧
    (quadStep (quadStep s a b).state a b).state &&& 3 = ((bitOf a) <<< 1) + bitOf b := by
  revert hs a b
  revert s
  decide

/-- Witness for claim C9 at s = 2, a = 1, b = 1. -/
theorem quadStep_repeat_absorbed_witness :
    (2 : Nat) < 16 ∧
    ((quadStep (quadStep 2 true true).state true true).delta = 0 ∧
      (quadStep (quadStep 2 true true).state true true).state &&& 3 =
        ((bitOf true) <<< 1) + bitOf true) :=
  ⟨by decide, quadStep_repeat_absorbed 2 (by decide) true true⟩

/-- Stepping the decoder from a register whose low two bits are 1,1 with the
first detent sample (A=0, B=1) lands on the clockwise code 0b1101. -/
theorem quadStep_rest_first (ls : Nat) (h : ls % 4 = 3) :
    quadStep ls false true = ⟨13, 1⟩ := by
  have hstate : quadState ls false true = 13 := by
    rw [quadState_eq, h]
    rfl
  unfold quadStep
  rw [hstate]
  rfl

/-- Unfolding equation of runEnc on a cons cell. -/
theorem runEnc_cons (s : EncState) (a b : Bool) (rest : List (Bool × Bool)) :
    runEnc s ((a, b) :: rest) =
      ((runEnc (feedSample s a b).1 rest).1,
        (feedSample s a b).2.toList ++ (runEnc (feedSample s a b).1 rest).2) := rfl

/-- Running a concatenation of sample lists threads the state through the
first list and concatenates the emitted bursts. -/
theorem runEnc_append (l1 l2 : List (Bool × Bool)) (s : EncState) :
    runEnc s (l1 ++ l2) =
      ((runEnc (runEnc s l1).1 l2).1,
        (runEnc s l1).2 ++ (runEnc (runEnc s l1).1 l2).2) := by
  induction l1 generalizing s with
  | nil => simp [runEnc]
  | cons p rest ihl =>
    obtain ⟨a, b⟩ := p
    rw [List.cons_append, runEnc_cons, runEnc_cons, ihl (feedSample s a b).1,
      List.append_assoc]

/-- Running one full clockwise detent from rest with an empty accumulator
emits exactly one clockwise burst and resets the accumulator. -/
theorem runEnc_detent (ls : Nat) (h : ls % 4 = 3) :
    runEnc ⟨ls, 0⟩ cwDetent = (⟨11, 0⟩, [true]) := by
  have h1 : feedSample ⟨ls, 0⟩ false true = (⟨13, 1⟩, none) := by
    unfold feedSample
    rw [quadStep_rest_first ls h]
    rfl
  show runEnc ⟨ls, 0⟩ ((false, true) :: [(false, false), (true, false), (true, true)]) = _
  rw [runEnc, h1]
  decide

/-- Claim C2: feeding n full clockwise detents (4 clockwise quadrature steps
per detent) from the rest levels A=B=1 with an empty accumulator emits exactly
n bursts, each tagged clockwise, and the accumulator is reset to 0 after each
emission (in particular it is 0 when the run ends, and instantiating the
theorem at every prefix count gives the reset after each detent). -/
theorem runEnc_detents_spec (n : Nat) (ls : Nat) (h : ls % 4 = 3) :
    (runEnc ⟨ls, 0⟩ (detentSamples n)).2 = List.replicate n true ∧
    (runEnc ⟨ls, 0⟩ (detentSamples n)).1.pos = 0 := by
  induction n generalizing ls with
  | zero => exact ⟨rfl, rfl⟩
  | succ n ih =>
    have happ := runEnc_append cwDetent (detentSamples n) ⟨ls, 0⟩
    have hdet := runEnc_detent ls h
    have hrest := ih 11 (by decide)
    constructor
    · show (runEnc ⟨ls, 0⟩ (cwDetent ++ detentSamples n)).2 = _
      rw [happ, hdet]
      simpa [List.replicate_succ] using hrest.1
    · show (runEnc ⟨ls, 0⟩ (cwDetent ++ detentSamples n)).1.pos = 0
      rw [happ, hdet]
      exact hrest.2

/-- Witness for claim C2 at n = 2 detents from register 3. -/
theorem runEnc_detents_spec_witness :
    (3 : Nat) % 4 = 3 ∧
    ((runEnc ⟨3, 0⟩ (detentSamples 2)).2 = List.replicate 2 true ∧
      (runEnc ⟨3, 0⟩ (detentSamples 2)).1.pos = 0) :=
  ⟨by decide, runEnc_detents_spec 2 3 (by decide)⟩

/-- Every quadrature step changes the accumulator by at most 1. -/
theorem quadStep_delta_le_one (ls : Nat) (a b : Bool) :
    ((quadStep ls a b).delta).natAbs ≤ 1 := by
  unfold quadStep
  split
  · show ((1 : Int)).natAbs ≤ 1
    decide
  · split
    · show ((-1 : Int)).natAbs ≤ 1
      decide
    · show ((0 : Int)).natAbs ≤ 1
      decide

/-- Processing one sample keeps the accumulator magnitude at most 3 when it
was at most 3 before. -/
theorem feedSample_pos_le (s : EncState) (a b : Bool) (hs : s.pos.natAbs ≤ 3) :
    ((feedSample s a b).1.pos).natAbs ≤ 3 := by
  have hd := quadStep_delta_le_one s.lastState a b
  simp only [feedSample]
  split
  · show ((0 : Int)).natAbs ≤ 3
    decide
  · next hcond =>
    show ((s.pos + (quadStep s.lastState a b).delta)).natAbs ≤ 3
    omega

/-- Running any sample list keeps the accumulator magnitude at most 3 when it
was at most 3 at the start. -/
theorem runEnc_pos_le (l : List (Bool × Bool)) (s : EncState) (h : s.pos.natAbs ≤ 3) :
    (((runEnc s l).1.pos)).natAbs ≤ 3 := by
  induction l generalizing s with
  | nil => simpa [runEnc] using h
  | cons p rest ih =>
    obtain ⟨a, b⟩ := p
    simp only [runEnc]
    exact ih (feedSample s a b).1 (feedSample_pos_le s a b h)

/-- Claim C10: starting from an accumulator of 0, the accumulator magnitude is
at most 3 after each sample-processing call returns (every sample changes it by
at most 1 and it is reset to 0 within the call whenever the burst threshold 4
is reached, so the threshold is never exceeded at rest). -/
theorem encoder_pos_invariant (ls : Nat) (samples : List (Bool × Bool)) (a b : Bool) :
    (((runEnc ⟨ls, 0⟩ samples).1.pos)).natAbs ≤ 3 ∧
    ((quadStep ls a b).delta).natAbs ≤ 1 :=
  ⟨runEnc_pos_le samples ⟨ls, 0⟩ (Nat.zero_le 3), quadStep_delta_le_one ls a b⟩

/-- Masking with 3 is reduction modulo 4. -/
theorem and_three (x : Nat) : x &&& 3 = x % 4 := by
  have h := Nat.and_pow_two_sub_one_eq_mod x 2
  norm_num at h
  exact h

/-- Button event classified by `_handle_button` at release time. -/
inductive BtnEvent where
  | short
  | long
  deriving DecidableEq

/-- Button classifier state: the `last_button_state` register and the
`button_press_time` timestamp. -/
structure BtnState where
  lastButtonState : Nat
  pressTime : ℚ
  deriving DecidableEq

/-- One call of `EncoderHandler._handle_button` with the sampled button level
and the current monotonic time: computes
`current_state = ((last_button_state << 1) + level) & 0b11`; on 0b10 (press)
it records the press timestamp and emits nothing; on 0b01 (release) it emits
a long press when `now - button_press_time >= hold_time - 1` and a short press
otherwise; the state register is updated to `current_state` in every case. -/
def handle_button (holdTime : ℚ) (st : BtnState) (level : Bool) (now : ℚ) :
    BtnState × Option BtnEvent :=
  let cur := ((st.lastButtonState <<< 1) + bitOf level) &&& 3
  if cur = 2 then ({ lastButtonState := cur, pressTime := now }, none)
  else if cur = 1 then
    ({ st with lastButtonState := cur },
      some (if holdTime - 1 ≤ now - st.pressTime then BtnEvent.long else BtnEvent.short))
  else ({ st with lastButtonState := cur }, none)

/-- Claim C6: from a released state (low bit of the register 1), sampling the
button down at time t0 records the press timestamp and emits no event, and the
following sample with the button up at time t1 emits exactly one event, a long
press precisely when the duration t1 - t0 is at least holdTime - 1 (effective
threshold 2 for the default holdTime 3); in particular a 1.5 s press with
holdTime 3 yields a short press and a 2.5 s press yields a long press. -/
theorem button_press_release_spec (holdTime : ℚ) (st : BtnState) (t0 t1 : ℚ)
    (hrel : st.lastButtonState % 2 = 1) :
    (handle_button holdTime st false t0).2 = none ∧
    (handle_button holdTime st false t0).1.pressTime = t0 ∧
    (handle_button holdTime (handle_button holdTime st false t0).1 true t1).2 =
      some (if holdTime - 1 ≤ t1 - t0 then BtnEvent.long else BtnEvent.short) ∧
    (handle_button 3 { lastButtonState := 2, pressTime := 0 } true ((3 : ℚ) / 2)).2 =
      some BtnEvent.short ∧
    (handle_button 3 { lastButtonState := 2, pressTime := 0 } true ((5 : ℚ) / 2)).2 =
      some BtnEvent.long := by
  have hcur : ((st.lastButtonState <<< 1) + bitOf false) &&& 3 = 2 := by
    rw [and_three, Nat.shiftLeft_eq]
    show (st.lastButtonState * 2 + 0) % 4 = 2
    omega
  have hpress : handle_button holdTime st false t0 =
      ({ lastButtonState := 2, pressTime := t0 }, none) := by
    simp only [handle_button, hcur]
    rfl
  refine ⟨by rw [hpress], by rw [hpress], ?_, ?_, ?_⟩
  · rw [hpress]
    have h1 : ((2 <<< 1) + bitOf true) &&& 3 = 1 := by decide
    simp only [handle_button, h1]
    norm_num
  · have h1 : ((2 <<< 1) + bitOf true) &&& 3 = 1 := by decide
    simp only [handle_button, h1]
    norm_num
  · have h1 : ((2 <<< 1) + bitOf true) &&& 3 = 1 := by decide
    simp only [handle_button, h1]
    norm_num

/-- Witness for claim C6 from the released register 1, press at 0, release
at 7. -/
theorem button_press_release_spec_witness :
    ((⟨1, 0⟩ : BtnState)).lastButtonState % 2 = 1 ∧
    ((handle_button 3 ⟨1, 0⟩ false 0).2 = none ∧
      (handle_button 3 ⟨1, 0⟩ false 0).1.pressTime = 0 ∧
      (handle_button 3 (handle_button 3 ⟨1, 0⟩ false 0).1 true 7).2 =
        some (if (3 : ℚ) - 1 ≤ 7 - 0 then BtnEvent.long else BtnEvent.short) ∧
      (handle_button 3 { lastButtonState := 2, pressTime := 0 } true ((3 : ℚ) / 2)).2 =
        some BtnEvent.short ∧
      (handle_button 3 { lastButtonState := 2, pressTime := 0 } true ((5 : ℚ) / 2)).2 =
        some BtnEvent.long) :=
  ⟨rfl, button_press_release_spec 3 ⟨1, 0⟩ 0 7 rfl⟩

/-- Operating mode (EncoderMode): a name and the four optional rotation
handlers. Handlers act on an abstract world state of type w. -/
structure Mode (w : Type) where
  name : String
  cw : Option (w → w)
  ccw : Option (w → w)
  cwBoost : Option (w → w)
  ccwBoost : Option (w → w)

/-- EncoderMode.repeat: `for i in range(repeat): func()`. -/
def repeatApply {w : Type} (f : w → w) : Nat → w → w
  | 0, s => s
  | n + 1, s => repeatApply f n (f s)

/-- EncoderMode.handle_clockwise: runs the boost handler `repeatcount` times
when a boost handler is bound and boost is set, otherwise the base handler
when bound, and returns the mode name suffixed with the direction tag. -/
def handleCW {w : Type} (m : Mode w) (boost : Bool) (repeatcount : Nat) (s : w) : w × String :=
  match m.cwBoost, boost with
  | some f, true => (repeatApply f repeatcount s, m.name ++ "_clockwise")
  | _, _ =>
    match m.cw with
    | some f => (repeatApply f repeatcount s, m.name ++ "_clockwise")
    | none => (s, m.name ++ "_clockwise")

/-- EncoderMode.handle_counterclockwise, symmetric to handleCW. -/
def handleCCW {w : Type} (m : Mode w) (boost : Bool) (repeatcount : Nat) (s : w) : w × String :=
  match m.ccwBoost, boost with
  | some f, true => (repeatApply f repeatcount s, m.name ++ "_counterclockwise")
  | _, _ =>
    match m.ccw with
    | some f => (repeatApply f repeatcount s, m.name ++ "_counterclockwise")
    | none => (s, m.name ++ "_counterclockwise")

/-- Gesture dispatch section of `_handle_encoder`: the guard
`if self.current_mode and self.current_mode in self.modes` (Python truthiness,
so an empty-string current mode never dispatches) selects the active mode,
invokes its direction handler, and then invokes the rotation callback, when
bound, exactly once with the handler result and the direction tag. The second
component collects the rotation-callback invocations. -/
def dispatch {w : Type} (modes : List (String × Mode w)) (current : Option String)
    (hasRotCb clockwise boost : Bool) (count : Nat) (s : w) :
    w × List (String × String) :=
  match current with
  | none => (s, [])
  | some cm =>
    if cm = "" then (s, [])
    else
      match modes.lookup cm with
      | none => (s, [])
      | some m =>
        let hr := if clockwise then handleCW m boost count s else handleCCW m boost count s
        (hr.1,
          if hasRotCb then [(hr.2, if clockwise then "clockwise" else "counterclockwise")]
          else [])

/-- Mode identifier accepted by set_mode: a mode name or an integer index. -/
inductive Ident where
  | str (s : String)
  | idx (i : Int)

/-- Registry state of EncoderHandler: the ordered mode mapping (a Python
dict keyed by mode name), the current mode name, the mode index, and whether a
mode-change callback is bound. -/
structure Handler (w : Type) where
  modes : List (String × Mode w)
  current : Option String
  modeIndex : Nat
  hasModeCb : Bool

/-- Python dict assignment `self.modes[name] = mode`: overwrites the value in
place when the key exists (insertion order kept), otherwise appends. -/
def dictInsert {w : Type} (l : List (String × Mode w)) (k : String) (v : Mode w) :
    List (String × Mode w) :=
  if (l.lookup k).isSome then l.map (fun p => if p.1 = k then (k, v) else p)
  else l ++ [(k, v)]

/-- EncoderHandler.add_mode: stores the mode under its name and makes it
current when no current mode is set. -/
def add_mode {w : Type} (h : Handler w) (m : Mode w) : Handler w :=
  { h with
    modes := dictInsert h.modes m.name m
    current := match h.current with | none => some m.name | some c => some c }

/-- EncoderHandler.set_mode: a valid integer index selects by position, a
known name selects by name; anything else leaves the registry untouched. The
mode-change callback, when bound, is invoked at the end of every call with the
current mode after the call (the invocation list is the second component). -/
def set_mode {w : Type} (h : Handler w) (ident : Ident) : Handler w × List (Option String) :=
  let h2 := match ident with
    | .idx i =>
      let ns := h.modes.map Prod.fst
      if 0 ≤ i ∧ i < (ns.length : Int) then
        { h with current := some (ns.getD i.toNat ""), modeIndex := i.toNat }
      else h
    | .str s =>
      if (h.modes.lookup s).isSome then
        { h with current := some s, modeIndex := (h.modes.map Prod.fst).indexOf s }
      else h
  (h2, if h.hasModeCb then [h2.current] else [])

/-- EncoderHandler.next_mode: on a non-empty registry advances the index
cyclically, selects the mode at that position and invokes the mode-change
callback when bound; on an empty registry does nothing. -/
def next_mode {w : Type} (h : Handler w) : Handler w × List (Option String) :=
  let ns := h.modes.map Prod.fst
  if ns.isEmpty then (h, [])
  else
    let i := (h.modeIndex + 1) % ns.length
    let h2 := { h with modeIndex := i, current := some (ns.getD i "") }
    (h2, if h.hasModeCb then [h2.current] else [])

/-- Registry operation: one call of add_mode, set_mode or next_mode. -/
inductive RegOp (w : Type) where
  | add (m : Mode w)
  | set (ident : Ident)
  | next

/-- State transition of one registry operation (callback output dropped). -/
def applyOp {w : Type} (h : Handler w) : RegOp w → Handler w
  | .add m => add_mode h m
  | .set ident => (set_mode h ident).1
  | .next => (next_mode h).1

/-- Runs a sequence of registry operations from a starting state. -/
def runOps {w : Type} (h : Handler w) (ops : List (RegOp w)) : Handler w :=
  ops.foldl applyOp h

/-- Freshly constructed EncoderHandler registry: no modes, no current mode. -/
def emptyHandler (w : Type) (cb : Bool) : Handler w :=
  { modes := [], current := none, modeIndex := 0, hasModeCb := cb }

/-- Registry invariant of claim C8: the current mode is a key present in the
mapping, or unset exactly when the mapping is empty. -/
def RegInv {w : Type} (h : Handler w) : Prop :=
  match h.current with
  | none => h.modes = []
  | some c => (h.modes.lookup c).isSome = true

/-- The repeat loop of EncoderMode.repeat applies the handler exactly n
times. -/
theorem repeatApply_eq_iterate {w : Type} (f : w → w) (n : Nat) (s : w) :
    repeatApply f n s = f^[n] s := by
  induction n generalizing s with
  | zero => rfl
  | succ n ih => rw [repeatApply, ih, Function.iterate_succ_apply]

/-- Claim C5 (amended): dispatching a gesture is a no-op when no current mode
is set, when the current mode is the empty string (Python truthiness of the
guard), or when the current mode is absent from the registry: the world state
is unchanged and no handler or observer runs. Otherwise the boost handler is
applied exactly when boost is set and a boost handler is bound, else the base
handler when bound, in either case exactly repeatCount times before dispatch
returns, and the rotation observer (when bound) is invoked exactly once per
burst with the mode name combined with the direction tag, not once per
repeat. -/
theorem dispatch_spec (w : Type) (modes : List (String × Mode w)) (cmA cm : String)
    (m : Mode w) (hasCb boost : Bool) (count : Nat) (s : w)
    (hA : modes.lookup cmA = none) (hm : modes.lookup cm = some m) (hne : cm ≠ "") :
    dispatch modes none hasCb true boost count s = (s, []) ∧
    dispatch modes (some cmA) hasCb true boost count s = (s, []) ∧
    dispatch modes (some "") hasCb true boost count s = (s, []) ∧
    dispatch modes (some cm) hasCb true boost count s =
      ((match m.cwBoost, boost with
        | some f, true => f^[count] s
        | _, _ => match m.cw with | some f => f^[count] s | none => s),
        if hasCb then [(m.name ++ "_clockwise", "clockwise")] else []) ∧
    dispatch modes (some cm) hasCb false boost count s =
      ((match m.ccwBoost, boost with
        | some f, true => f^[count] s
        | _, _ => match m.ccw with | some f => f^[count] s | none => s),
        if hasCb then [(m.name ++ "_counterclockwise", "counterclockwise")] else []) := by
  refine ⟨rfl, ?_, ?_, ?_, ?_⟩
  · by_cases hA0 : cmA = ""
    · simp [dispatch, hA0]
    · simp [dispatch, hA0, hA]
  · simp [dispatch]
  · simp only [dispatch, if_neg hne, hm, if_true]
    rw [Prod.mk.injEq]
    constructor
    · show (handleCW m boost count s).1 = _
      unfold handleCW
      rcases hbf : m.cwBoost with _ | f
      · rcases hf : m.cw with _ | f
        · rfl
        · simp [repeatApply_eq_iterate]
      · cases boost
        · rcases hf : m.cw with _ | g
          · rfl
          · simp [repeatApply_eq_iterate]
        · simp [repeatApply_eq_iterate]
    · show (if hasCb then [((handleCW m boost count s).2, "clockwise")] else []) = _
      have hsnd : (handleCW m boost count s).2 = m.name ++ "_clockwise" := by
        unfold handleCW
        rcases m.cwBoost with _ | f
        · rcases m.cw with _ | f <;> rfl
        · cases boost
          · rcases m.cw with _ | g <;> rfl
          · rfl
      rw [hsnd]
  · simp only [dispatch, if_neg hne, hm, Bool.false_eq_true, if_false]
    rw [Prod.mk.injEq]
    constructor
    · show (handleCCW m boost count s).1 = _
      unfold handleCCW
      rcases hbf : m.ccwBoost with _ | f
      · rcases hf : m.ccw with _ | f
        · rfl
        · simp [repeatApply_eq_iterate]
      · cases boost
        · rcases hf : m.ccw with _ | g
          · rfl
          · simp [repeatApply_eq_iterate]
        · simp [repeatApply_eq_iterate]
    · show (if hasCb then [((handleCCW m boost count s).2, "counterclockwise")] else []) = _
      have hsnd : (handleCCW m boost count s).2 = m.name ++ "_counterclockwise" := by
        unfold handleCCW
        rcases m.ccwBoost with _ | f
        · rcases m.ccw with _ | f <;> rfl
        · cases boost
          · rcases m.ccw with _ | g <;> rfl
          · rfl
      rw [hsnd]

/-- Mode used to exhibit the empty-string dispatch gap: its name is the empty
string and its base clockwise handler increments a counter. -/
def emptyNameMode : Mode Nat :=
  { name := "", cw := some Nat.succ, ccw := none, cwBoost := none, ccwBoost := none }

/-- Counterexample to claim C5 as stated: the mode named by the empty string
is present in the registry and has a bound base handler, yet dispatching a
clockwise gesture with repeatCount 1 leaves the state at 0 (the handler never
runs) and invokes no observer, because the Python guard
`if self.current_mode and ...` treats the empty string as false. -/
theorem dispatch_empty_name_counterexample :
    (([(("" : String), emptyNameMode)]).lookup "").isSome = true ∧
    dispatch [(("" : String), emptyNameMode)] (some "") true true false 1 0 = (0, []) :=
  ⟨rfl, rfl⟩

/-- Mode used in the dispatch and registry witnesses: counts handler calls. -/
def countMode : Mode Nat :=
  { name := "volume", cw := some Nat.succ, ccw := some Nat.succ,
    cwBoost := some (fun n => n + 10), ccwBoost := none }

/-- Witness for claim C5: registry with the mode named volume, an absent name,
boost off, repeatCount 3. -/
theorem dispatch_spec_witness :
    (([(("volume" : String), countMode)]).lookup "brightness" = none ∧
      ([(("volume" : String), countMode)]).lookup "volume" = some countMode ∧
      ("volume" : String) ≠ "") ∧
    dispatch [(("volume" : String), countMode)] (some "volume") true true false 3 0 =
      (3, [(("volume_clockwise" : String), ("clockwise" : String))]) := by
  have h := dispatch_spec Nat [(("volume" : String), countMode)] "brightness" "volume"
    countMode true false 3 0 rfl rfl (by decide)
  refine ⟨⟨rfl, rfl, by decide⟩, ?_⟩
  have h4 := h.2.2.2.1
  rw [h4]
  rfl

/-- Claim C3 (amended): a set_mode call with an unknown name or an index
outside [0, count) leaves the whole registry state unchanged and raises no
exception; however the mode-change observer, when bound, is invoked on every
set_mode call with the post-call current mode: the new name on success, the
unchanged (possibly unset) current mode on failure. -/
theorem set_mode_spec (w : Type) (h : Handler w) (bad good : String) (i : Int) (m : Mode w)
    (hbad : h.modes.lookup bad = none)
    (hi : i < 0 ∨ ((h.modes.map Prod.fst).length : Int) ≤ i)
    (hgood : h.modes.lookup good = some m) :
    (set_mode h (Ident.str bad)).1 = h ∧
    (set_mode h (Ident.str bad)).2 = (if h.hasModeCb then [h.current] else []) ∧
    (set_mode h (Ident.idx i)).1 = h ∧
    (set_mode h (Ident.idx i)).2 = (if h.hasModeCb then [h.current] else []) ∧
    (set_mode h (Ident.str good)).1.current = some good ∧
    (set_mode h (Ident.str good)).2 = (if h.hasModeCb then [some good] else []) := by
  have hbad2 : (h.modes.lookup bad).isSome = false := by rw [hbad]; rfl
  have hidx : ¬ (0 ≤ i ∧ i < (((h.modes.map Prod.fst).length : Nat) : Int)) := by omega
  have hgood2 : (h.modes.lookup good).isSome = true := by rw [hgood]; rfl
  refine ⟨?_, ?_, ?_, ?_, ?_, ?_⟩
  · simp [set_mode, hbad2]
  · simp [set_mode, hbad2]
  · simp only [set_mode, if_neg hidx]
  · simp only [set_mode, if_neg hidx]
  · simp [set_mode, hgood2]
  · simp [set_mode, hgood2]

/-- Mode with name a and no handlers, used in concrete registry states. -/
def modeA : Mode Unit :=
  { name := "a", cw := none, ccw := none, cwBoost := none, ccwBoost := none }

/-- Registry holding only the mode named a, with it current and a mode-change
callback bound. -/
def regOne : Handler Unit :=
  { modes := [(("a" : String), modeA)], current := some ("a"), modeIndex := 0,
    hasModeCb := true }

/-- Counterexample to claim C3 as stated: calling set_mode with the unknown
name zzz leaves the current mode unchanged, yet the mode-change observer is
invoked (here once, with the old current mode a), because the callback call
sits outside the success branches of EncoderHandler.set_mode. -/
theorem set_mode_cb_counterexample :
    (regOne.modes.lookup "zzz" = none) ∧
    (set_mode regOne (Ident.str ("zzz"))).1.current = some ("a") ∧
    (set_mode regOne (Ident.str ("zzz"))).2 = [some ("a")] :=
  ⟨rfl, rfl, rfl⟩

/-- Witness for claim C3 on the one-mode registry: unknown name zzz, invalid
index -1, known name a. -/
theorem set_mode_spec_witness :
    (regOne.modes.lookup "zzz" = none ∧
      ((-1 : Int) < 0 ∨ ((regOne.modes.map Prod.fst).length : Int) ≤ (-1 : Int)) ∧
      regOne.modes.lookup "a" = some modeA) ∧
    ((set_mode regOne (Ident.str ("zzz"))).1 = regOne ∧
      (set_mode regOne (Ident.str ("zzz"))).2 =
        (if regOne.hasModeCb then [regOne.current] else []) ∧
      (set_mode regOne (Ident.idx (-1))).1 = regOne ∧
      (set_mode regOne (Ident.idx (-1))).2 =
        (if regOne.hasModeCb then [regOne.current] else []) ∧
      (set_mode regOne (Ident.str ("a"))).1.current = some ("a") ∧
      (set_mode regOne (Ident.str ("a"))).2 =
        (if regOne.hasModeCb then [some ("a")] else [])) :=
  ⟨⟨rfl, Or.inl (by decide), rfl⟩,
    set_mode_spec Unit regOne "zzz" "a" (-1) modeA rfl (Or.inl (by decide)) rfl⟩

/-- Membership in the key list coincides with a successful lookup. -/
theorem lookup_isSome_iff_mem {w : Type} (l : List (String × Mode w)) (c : String) :
    (l.lookup c).isSome = true ↔ c ∈ l.map Prod.fst := by
  induction l with
  | nil => simp [List.lookup]
  | cons p t ih =>
    obtain ⟨k, v⟩ := p
    by_cases hck : c = k
    · simp [List.lookup, hck]
    · have hbeq : (c == k) = false := by
        simp [hck]
      simp [List.lookup, hbeq, ih, hck]

/-- A dict insertion keeps the existing keys and adds at most the new one. -/
theorem keys_dictInsert {w : Type} (l : List (String × Mode w)) (k : String) (v : Mode w) :
    (dictInsert l k v).map Prod.fst =
      (if (l.lookup k).isSome then l.map Prod.fst else l.map Prod.fst ++ [k]) := by
  unfold dictInsert
  split
  · rw [List.map_map]
    have hfun : (Prod.fst ∘ fun p : String × Mode w => if p.1 = k then (k, v) else p) =
        Prod.fst := by
      funext p
      by_cases hp : p.1 = k
      · simp [Function.comp, hp]
      · simp [Function.comp, hp]
    rw [hfun]
  · simp

/-- One registry operation preserves the registry invariant. -/
theorem applyOp_regInv {w : Type} (h : Handler w) (op : RegOp w) (hinv : RegInv h) :
    RegInv (applyOp h op) := by
  cases op with
  | add m =>
    obtain ⟨ms, cur, mi, cb⟩ := h
    rcases cur with _ | c
    · have hms : ms = [] := hinv
      subst hms
      show ((dictInsert [] m.name m).lookup m.name).isSome = true
      simp [dictInsert, List.lookup]
    · show ((dictInsert ms m.name m).lookup c).isSome = true
      have hc : c ∈ ms.map Prod.fst := (lookup_isSome_iff_mem ms c).mp hinv
      rw [lookup_isSome_iff_mem, keys_dictInsert]
      split <;> simp [hc]
  | set ident =>
    show RegInv (set_mode h ident).1
    cases ident with
    | str nm =>
      by_cases hnm : (h.modes.lookup nm).isSome = true
      · have : (set_mode h (Ident.str nm)).1 =
            { h with current := some nm, modeIndex := (h.modes.map Prod.fst).indexOf nm } := by
          simp [set_mode, hnm]
        rw [this]
        exact hnm
      · have : (set_mode h (Ident.str nm)).1 = h := by
          simp [set_mode, hnm]
        rw [this]
        exact hinv
    | idx i =>
      by_cases hrange : 0 ≤ i ∧ i < (((h.modes.map Prod.fst).length : Nat) : Int)
      · have hstep : (set_mode h (Ident.idx i)).1 =
            { h with current := some ((h.modes.map Prod.fst).getD i.toNat ""),
                     modeIndex := i.toNat } := by
          simp only [set_mode]
          rw [if_pos hrange]
        rw [hstep]
        show ((h.modes.lookup ((h.modes.map Prod.fst).getD i.toNat ""))).isSome = true
        rw [lookup_isSome_iff_mem]
        have hlen : i.toNat < (h.modes.map Prod.fst).length := by
          rcases hrange with ⟨hr1, hr2⟩
          omega
        rw [List.getD_eq_getElem?_getD, List.getElem?_eq_getElem hlen, Option.getD_some]
        exact List.getElem_mem hlen
      · have : (set_mode h (Ident.idx i)).1 = h := by
          simp only [set_mode, if_neg hrange]
        rw [this]
        exact hinv
  | next =>
    show RegInv (next_mode h).1
    by_cases hemp : (h.modes.map Prod.fst).isEmpty = true
    · have : (next_mode h).1 = h := by
        simp [next_mode, hemp]
      rw [this]
      exact hinv
    · have hlen : 0 < (h.modes.map Prod.fst).length := by
        cases hl : h.modes.map Prod.fst with
        | nil => rw [hl] at hemp; simp at hemp
        | cons x t => simp [hl]
      have hmod : (h.modeIndex + 1) % (h.modes.map Prod.fst).length <
          (h.modes.map Prod.fst).length := Nat.mod_lt _ hlen
      have : (next_mode h).1 =
          { h with modeIndex := (h.modeIndex + 1) % (h.modes.map Prod.fst).length,
                   current := some ((h.modes.map Prod.fst).getD
                     ((h.modeIndex + 1) % (h.modes.map Prod.fst).length) "") } := by
        simp [next_mode, hemp]
      rw [this]
      show ((h.modes.lookup ((h.modes.map Prod.fst).getD _ ""))).isSome = true
      rw [lookup_isSome_iff_mem]
      rw [List.getD_eq_getElem?_getD, List.getElem?_eq_getElem hmod]
      exact List.getElem_mem hmod

/-- Running any operation sequence preserves the registry invariant. -/
theorem runOps_regInv {w : Type} (ops : List (RegOp w)) (h : Handler w) (hinv : RegInv h) :
    RegInv (runOps h ops) := by
  induction ops generalizing h with
  | nil => exact hinv
  | cons op rest ih => exact ih (applyOp h op) (applyOp_regInv h op hinv)

/-- Claim C8: after every sequence of add_mode, set_mode and next_mode
operations from an empty registry, the current mode is a key present in the
mapping or unset exactly when the registry is empty; the first registered mode
becomes current automatically; and next_mode on an empty registry is a
no-op. -/
theorem registry_invariant (w : Type) (cb : Bool) (ops : List (RegOp w))
    (h1 : Handler w) (m : Mode w) (h2 : Handler w)
    (hc : h1.current = none) (he : h2.modes = []) :
    RegInv (runOps (emptyHandler w cb) ops) ∧
    (add_mode h1 m).current = some m.name ∧
    next_mode h2 = (h2, []) := by
  refine ⟨runOps_regInv ops (emptyHandler w cb) rfl, ?_, ?_⟩
  · simp [add_mode, hc]
  · simp [next_mode, he]

/-- Witness for claim C8: two operations from the empty registry, a handler
with no current mode, and a handler with an empty mapping. -/
theorem registry_invariant_witness :
    ((emptyHandler Unit true).current = none ∧ (emptyHandler Unit false).modes = []) ∧
    (RegInv (runOps (emptyHandler Unit true) [RegOp.add modeA, RegOp.next]) ∧
      (add_mode (emptyHandler Unit true) modeA).current = some modeA.name ∧
      next_mode (emptyHandler Unit false) = (emptyHandler Unit false, [])) :=
  ⟨⟨rfl, rfl⟩,
    registry_invariant Unit true [RegOp.add modeA, RegOp.next]
      (emptyHandler Unit true) modeA (emptyHandler Unit false) rfl rfl⟩

/-- Clamp applied to the elapsed time in `_handle_encoder`:
`speed = max(0.05, min(0.5, time.monotonic() - self.encoder_last_time))`. -/
noncomputable def speedClamp (dt : ℝ) : ℝ := max 0.05 (min 0.5 dt)

/-- Python `int()`: truncation toward zero. -/
noncomputable def pyInt (x : ℝ) : ℤ := if x < 0 then -⌊-x⌋ else ⌊x⌋

/-- Repeat-count curve of `_handle_encoder`: count 10 when the clamped speed
is at most 0.05, count 1 when it is at least 0.5, otherwise
`int(A * ((-log speed) ** p) + B)` with A = 2.223, p = 1.4, B = -0.329. -/
noncomputable def curveCount (dt : ℝ) : ℤ :=
  if speedClamp dt ≤ 0.05 then 10
  else if 0.5 ≤ speedClamp dt then 1
  else pyInt (2.223 * (-Real.log (speedClamp dt)) ^ (1.4 : ℝ) + (-0.329))

/-- Boost policy of `_handle_encoder`: when the curve count exceeds 5 the
boost flag is set and the count halved by `count >>= 1`, otherwise the count
is kept with the flag clear. The pair is (boosted, repeatCount). -/
noncomputable def classifyBurst (dt : ℝ) : Bool × ℤ :=
  if 5 < curveCount dt then (true, curveCount dt / 2) else (false, curveCount dt)

/-- Claim C4: the elapsed time is clamped to [0.05, 0.5]; a burst whose
clamped elapsed time equals 0.05 is classified with curve value 10, hence
boosted with repeatCount 10 / 2 = 5; a burst whose clamped elapsed time
equals 0.5 is classified with repeatCount 1 and not boosted. -/
theorem classify_boundary (dt1 dt2 : ℝ)
    (h1 : speedClamp dt1 = 0.05) (h2 : speedClamp dt2 = 0.5) :
    classifyBurst dt1 = (true, 5) ∧ classifyBurst dt2 = (false, 1) := by
  constructor
  · have hc : curveCount dt1 = 10 := by
      rw [curveCount, h1]
      norm_num
    rw [classifyBurst, hc]
    norm_num
  · have hc : curveCount dt2 = 1 := by
      rw [curveCount, h2]
      norm_num
    rw [classifyBurst, hc]
    norm_num

/-- Witness for claim C4 at elapsed times 0.01 (clamped up to 0.05) and 7
(clamped down to 0.5). -/
theorem classify_boundary_witness :
    (speedClamp 0.01 = 0.05 ∧ speedClamp 7 = 0.5) ∧
    (classifyBurst 0.01 = (true, 5) ∧ classifyBurst 7 = (false, 1)) := by
  have ha : speedClamp 0.01 = 0.05 := by
    rw [speedClamp]
    norm_num
  have hb : speedClamp 7 = 0.5 := by
    rw [speedClamp]
    norm_num
  exact ⟨⟨ha, hb⟩, classify_boundary 0.01 7 ha hb⟩

/-- Numeric kernel of the curve lower bound: the ninth-digit lower bound on
log 2, raised to the power 1.4, still exceeds 1.329 / 2.223. Both sides are
nonnegative, so the inequality follows from comparing fifth powers of the
left side with seventh powers of the base. -/
theorem rpow_log_two_bound : (1.329 / 2.223 : ℝ) ≤ (0.6931471803 : ℝ) ^ (1.4 : ℝ) := by
  have hb : (0 : ℝ) ≤ 0.6931471803 := by norm_num
  have hc : (0 : ℝ) ≤ 1.329 / 2.223 := by norm_num
  have h5 : (1.329 / 2.223 : ℝ) ^ (5 : ℕ) ≤ (0.6931471803 : ℝ) ^ (7 : ℕ) := by norm_num
  have hfifth : (0 : ℝ) ≤ (1 : ℝ) / 5 := by norm_num
  calc (1.329 / 2.223 : ℝ)
      = ((1.329 / 2.223 : ℝ) ^ (5 : ℕ)) ^ ((1 : ℝ) / 5) := by
        rw [← Real.rpow_natCast (1.329 / 2.223 : ℝ) 5, ← Real.rpow_mul hc]
        norm_num
    _ ≤ ((0.6931471803 : ℝ) ^ (7 : ℕ)) ^ ((1 : ℝ) / 5) :=
        Real.rpow_le_rpow (by positivity) h5 hfifth
    _ = (0.6931471803 : ℝ) ^ (1.4 : ℝ) := by
        rw [← Real.rpow_natCast (0.6931471803 : ℝ) 7, ← Real.rpow_mul hb]
        norm_num

/-- On the open clamp interval the curve value before truncation is at least
1. -/
theorem curve_value_ge_one (s : ℝ) (hlo : 0.05 < s) (hhi : s < 0.5) :
    (1 : ℝ) ≤ 2.223 * (-Real.log s) ^ (1.4 : ℝ) + (-0.329) := by
  have hs0 : (0 : ℝ) < s := by linarith
  have hlog : Real.log s < Real.log 2⁻¹ := by
    apply Real.log_lt_log hs0
    norm_num
    linarith
  rw [Real.log_inv] at hlog
  have ha : (0.6931471803 : ℝ) ≤ -Real.log s := by
    have := Real.log_two_gt_d9
    linarith
  have hmono : (0.6931471803 : ℝ) ^ (1.4 : ℝ) ≤ (-Real.log s) ^ (1.4 : ℝ) :=
    Real.rpow_le_rpow (by norm_num) ha (by norm_num)
  have hkey : (1.329 / 2.223 : ℝ) ≤ (-Real.log s) ^ (1.4 : ℝ) :=
    le_trans rpow_log_two_bound hmono
  have h2223 : (0 : ℝ) < 2.223 := by norm_num
  have := (div_le_iff₀ h2223).mp hkey
  linarith

/-- The curve count emitted for any elapsed time is at least 1. -/
theorem curveCount_ge_one (dt : ℝ) : 1 ≤ curveCount dt := by
  unfold curveCount
  split
  · norm_num
  · split
    · norm_num
    · next hlo hhi =>
      have hlo2 : (0.05 : ℝ) < speedClamp dt := lt_of_not_le hlo
      have hhi2 : speedClamp dt < 0.5 := lt_of_not_le hhi
      have hval := curve_value_ge_one (speedClamp dt) hlo2 hhi2
      rw [pyInt, if_neg (by linarith)]
      exact Int.le_floor.mpr (by exact_mod_cast hval)

/-- Claim C7: for every emitted gesture, regardless of the elapsed time since
the previous burst, the emitted repeatCount is at least 1: the clamped curve
never truncates below 1, and halving applies only to counts above 5 and so
leaves at least 3. (The code contains no explicit lower-bound guard; the bound
comes from these two facts.) -/
theorem classify_count_ge_one (dt : ℝ) : 1 ≤ (classifyBurst dt).2 := by
  have hc := curveCount_ge_one dt
  unfold classifyBurst
  split
  · next hgt =>
    show 1 ≤ curveCount dt / 2
    omega
  · exact hc

end Enc
